import Mathlib

/-!
Shallow embedding of the deferred-command rendering pipeline of
`rust_graphics_sandbox` (src/app.rs, src/camera.rs, src/mesh.rs,
src/material.rs).

Modelling conventions:
* wgpu GPU objects (`Arc<wgpu::RenderPipeline>`, `wgpu::BindGroup`,
  `wgpu::Buffer`) are compared by reference identity in the source
  (`Arc::ptr_eq`, `Arc::as_ptr as usize`); they are modelled as opaque
  numeric identifiers, so `Arc::ptr_eq` becomes `Nat` equality and the
  `sort_by_key(Arc::as_ptr as usize)` key becomes the identifier itself.
* `crossbeam::queue::SegQueue` is a FIFO queue; it is modelled as a
  `List`, with `push` appending at the tail and the drain loop
  (`while let Some(cmd) = queue.pop()`) producing the list front-to-back.
* `f32` scalars, `glam` vectors and matrices are not modelled as floats;
  the camera development is parametric over the carrier types and the
  `glam` operations used by the source (`look_at_rh`,
  `perspective_rh_gl`, matrix multiplication, `to_cols_array_2d`).
* `RwLock<HashMap<Handle, Arc<T>>>` is modelled as the map
  `Handle → Option T` (the lock is irrelevant to the sequential
  contract), and `Arc<T>` as `T`.
-/

/-- Numeric identity of a wgpu object (models `Arc` pointer identity). -/
abbrev GpuId := Nat

/-- `struct Mesh` (src/mesh.rs): GPU vertex/index buffers plus index count.
Buffers are modelled by their identities. -/
structure Mesh where
  vertex_buffer : GpuId
  index_buffer : GpuId
  index_count : Nat
deriving DecidableEq

/-- `struct Material` (src/material.rs): the fields read by the render
path — `pipeline: Arc<wgpu::RenderPipeline>` and
`bind_groups: Vec<wgpu::BindGroup>` — modelled by object identities. -/
structure Material where
  pipeline : GpuId
  bind_groups : List GpuId
deriving DecidableEq

/-- `struct Renderable` (src/app.rs:120-125). -/
structure Renderable where
  mesh : Mesh
  material : Material
  visible : Bool
deriving DecidableEq

/-- `struct GpuRenderCommand` (src/app.rs:55-61). -/
structure GpuRenderCommand where
  pipeline : GpuId
  bind_groups : List GpuId
  vertex_buffer : GpuId
  index_buffer : GpuId
  index_count : Nat
deriving DecidableEq

/-- `struct GpuWriteBufferCommand` (src/app.rs:35-39); the byte payload
(`data: Vec<u8>`, produced by `bytemuck::cast_slice`) is abstracted to a
payload type `β`. -/
structure GpuWriteBufferCommand (β : Type) where
  buffer : GpuId
  offset : Nat
  data : β
deriving DecidableEq

/-- `struct GpuCreateBufferCommand` (src/app.rs:31-34); its payload
(`data` plus `desc`) is abstracted to a type `γ` — nothing in the
repository ever reads it. -/
structure GpuCreateBufferCommand (γ : Type) where
  data : γ
deriving DecidableEq

/-- The three command-queue resources (src/app.rs:63-76), each a
`SegQueue` modelled as a FIFO list. -/
structure Queues (γ β : Type) where
  create_queue : List (GpuCreateBufferCommand γ)
  write_queue : List (GpuWriteBufferCommand β)
  render_queue : List GpuRenderCommand
deriving DecidableEq

/-- `struct Handle(usize)` (src/app.rs:127-128). -/
structure Handle where
  val : Nat
deriving DecidableEq

/-- `struct SpawnGltf` (src/app.rs:130-134). -/
structure SpawnGltf where
  mesh_handle : Handle
  material_handle : Handle

/-- `struct AssetManager<T>` (src/app.rs:136-140):
`assets: RwLock<HashMap<Handle, Arc<T>>>` modelled as `Handle → Option T`,
`next_handle: RwLock<usize>` as a `Nat`. -/
structure AssetManager (T : Type) where
  assets : Handle → Option T
  next_handle : Nat

/-- `AssetManager::new` (src/app.rs:142-147). -/
def AssetManager.new {T : Type} : AssetManager T :=
  { assets := fun _ => none, next_handle := 0 }

/-- `AssetManager::insert` (src/app.rs:149-161): allocate the next
handle, bump the counter, store the asset under the handle. -/
def AssetManager.insert {T : Type} (m : AssetManager T) (asset : T) :
    Handle × AssetManager T :=
  let handle : Handle := ⟨m.next_handle⟩
  (handle,
    { assets := fun h => if h = handle then some asset else m.assets h,
      next_handle := m.next_handle + 1 })

/-- `AssetManager::get` (src/app.rs:163-166). -/
def AssetManager.get {T : Type} (m : AssetManager T) (h : Handle) : Option T :=
  m.assets h

/-- `AssetManager::remove` (src/app.rs:168-171): `HashMap::remove`
returns the removed value and deletes the entry; the counter is
untouched. -/
def AssetManager.remove {T : Type} (m : AssetManager T) (h : Handle) :
    Option T × AssetManager T :=
  (m.assets h,
    { m with assets := fun h' => if h' = h then none else m.assets h' })

/-- A call sequence against one registry: `insert` or `remove` calls. -/
inductive RegOp (T : Type) where
  | ins : T → RegOp T
  | rem : Handle → RegOp T

/-- Run a call sequence, collecting the handles returned by the
`insert` calls in call order. -/
def runOps {T : Type} (m : AssetManager T) : List (RegOp T) → AssetManager T × List Handle
  | [] => (m, [])
  | RegOp.ins a :: ops =>
    let r := m.insert a
    let rest := runOps r.2 ops
    (rest.1, r.1 :: rest.2)
  | RegOp.rem h :: ops => runOps (m.remove h).2 ops

/-- `fn render_system` (src/app.rs:616-626): for every `Renderable` in
the query, push one `GpuRenderCommand` built from its material's
pipeline and bind groups and its mesh's buffers and index count.
The `visible` field is not consulted by the source loop. -/
def render_system : List Renderable → List GpuRenderCommand → List GpuRenderCommand
  | [], queue => queue
  | r :: rest, queue =>
    render_system rest
      (queue ++ [{ pipeline := r.material.pipeline,
                   bind_groups := r.material.bind_groups,
                   vertex_buffer := r.mesh.vertex_buffer,
                   index_buffer := r.mesh.index_buffer,
                   index_count := r.mesh.index_count }])

/-- `fn spawn_gltf_system` (src/app.rs:594-614): for each `SpawnGltf`
message, resolve both handles; spawn a `Renderable` (with
`visible: true`) only when both resolve, otherwise skip the message. -/
def spawn_gltf_system (meshes : AssetManager Mesh) (materials : AssetManager Material) :
    List SpawnGltf → List Renderable
  | [] => []
  | e :: es =>
    match meshes.get e.mesh_handle, materials.get e.material_handle with
    | some mesh, some material =>
      { mesh := mesh, material := material, visible := true } ::
        spawn_gltf_system meshes materials es
    | _, _ => spawn_gltf_system meshes materials es

/-- The `glam` operations used by the camera path (src/camera.rs),
parametric over the vector (`V`), scalar (`S`), matrix (`M`) and
column-array (`C`, the `to_cols_array_2d` image) carriers; `f32`
arithmetic itself is not modelled. -/
structure GlamOps (V S M C : Type) where
  look_at_rh : V → V → V → M
  perspective_rh_gl : S → S → S → S → M
  mul : M → M → M
  to_cols_array_2d : M → C

/-- `struct CameraUniform` (src/camera.rs:95-99). -/
structure CameraUniform (C : Type) where
  view_proj : C
deriving DecidableEq

/-- `struct Camera` (src/camera.rs:6-18); the `Arc<wgpu::Buffer>` is
modelled by its identity. -/
structure Camera (V S M C : Type) where
  uniform : CameraUniform C
  buffer : GpuId
  eye : V
  center : V
  up : V
  view : M
  fov : S
  aspect_ratio : S
  z_near : S
  z_far : S
  projection : M

/-- `Camera::update_uniform` (src/camera.rs:66-71): recompute the
view and projection locally from the current fields and overwrite
`uniform.view_proj` with `projection * view`; the cached `view` and
`projection` struct fields are left untouched by the source. -/
def Camera.update_uniform {V S M C : Type} (g : GlamOps V S M C)
    (c : Camera V S M C) : Camera V S M C :=
  let view := g.look_at_rh c.eye c.center c.up
  let projection := g.perspective_rh_gl c.fov c.aspect_ratio c.z_near c.z_far
  { c with uniform := { view_proj := g.to_cols_array_2d (g.mul projection view) } }

/-- The camera-drag handler in the debug overlay (src/app.rs:499-501):
mutating the camera's `eye` is immediately followed by
`update_uniform()` — this is the repository's only camera mutation
site. -/
def apply_camera_drag {V S M C : Type} (g : GlamOps V S M C)
    (c : Camera V S M C) (new_eye : V) : Camera V S M C :=
  Camera.update_uniform g { c with eye := new_eye }

/-- `fn camera_main_uniform_system` (src/app.rs:584-592): for every
main camera, push `GpuWriteBufferCommand::new(camera.buffer.clone(), 0,
&camera.uniform)`; the payload is the (serialized) current `uniform`. -/
def camera_main_uniform_system {V S M C : Type} :
    List (Camera V S M C) → List (GpuWriteBufferCommand (CameraUniform C)) →
    List (GpuWriteBufferCommand (CameraUniform C))
  | [], queue => queue
  | camera :: rest, queue =>
    camera_main_uniform_system rest
      (queue ++ [{ buffer := camera.buffer, offset := 0, data := camera.uniform }])

/-- One recorded render-pass call of the replay loop
(src/app.rs:469-482). -/
inductive RenderEvent where
  | set_pipeline (pipeline : GpuId)
  | set_bind_group (slot : Nat) (bind_group : GpuId)
  | set_vertex_buffer (slot : Nat) (buffer : GpuId)
  | set_index_buffer (buffer : GpuId)
  | draw_indexed (index_count : Nat)
deriving DecidableEq

/-- Whether a replay event is a pipeline-bind call. -/
def RenderEvent.isSetPipeline : RenderEvent → Bool
  | RenderEvent.set_pipeline _ => true
  | _ => false

/-- The `sort_by_key` comparison (src/app.rs:463-466): key is
`Arc::as_ptr(pipeline) as usize`, i.e. the pipeline identity. -/
def renderLE (a b : GpuRenderCommand) : Bool :=
  decide (a.pipeline ≤ b.pipeline)

/-- `cmd_vec.sort_by_key(|cmd| Arc::as_ptr(pipeline) as usize)`
(src/app.rs:463-466); Rust's `sort_by_key` is a stable sort, modelled
by `List.mergeSort`. -/
def sort_render (cmds : List GpuRenderCommand) : List GpuRenderCommand :=
  cmds.mergeSort renderLE

/-- The replay loop over the sorted command list (src/app.rs:468-482):
track the currently bound pipeline and bind a new one only when the
command's pipeline differs (`is_none_or(|p| !Arc::ptr_eq(p, …))`);
then `set_bind_group(0, &cmd.bind_groups[0], &[])` — which panics when
`bind_groups` is empty, modelled as `none` — then bind the vertex and
index buffers and issue the indexed draw. -/
def replay (cur : Option GpuId) : List GpuRenderCommand → Option (List RenderEvent)
  | [] => some []
  | cmd :: rest =>
    let pre := if cur = some cmd.pipeline then [] else [RenderEvent.set_pipeline cmd.pipeline]
    match cmd.bind_groups with
    | [] => none
    | bg :: _ =>
      match replay (some cmd.pipeline) rest with
      | none => none
      | some evs =>
        some (pre ++
          [RenderEvent.set_bind_group 0 bg,
           RenderEvent.set_vertex_buffer 0 cmd.vertex_buffer,
           RenderEvent.set_index_buffer cmd.index_buffer,
           RenderEvent.draw_indexed cmd.index_count] ++ evs)

/-- The number of `set_pipeline` calls the replay loop issues for a
command list, given the currently tracked pipeline: one whenever the
next command's pipeline differs from the tracked one
(src/app.rs:468-476). -/
def bindCount (cur : Option GpuId) : List GpuRenderCommand → Nat
  | [] => 0
  | cmd :: rest =>
    (if cur = some cmd.pipeline then 0 else 1) + bindCount (some cmd.pipeline) rest

/-- The per-frame body of `App::update_and_render` (src/app.rs:445-483)
relevant to the deferred-command protocol: run the `RenderSchedule`
systems (`camera_main_uniform_system` and `render_system` push into
their queues), then drain the write-buffer queue and execute the writes
in drain order, then drain the render queue, sort it by pipeline
identity and replay it.  The create-buffer queue is not touched by any
code in the repository.  Returns the queue state left for the next
frame, the executed buffer writes, and the recorded render-pass events
(`none` when the replay panicked). -/
def update_and_render {γ V S M C : Type}
    (cameras : List (Camera V S M C)) (renderables : List Renderable)
    (qs : Queues γ (CameraUniform C)) :
    Queues γ (CameraUniform C) ×
      List (GpuWriteBufferCommand (CameraUniform C)) × Option (List RenderEvent) :=
  let write_queue := camera_main_uniform_system cameras qs.write_queue
  let render_queue := render_system renderables qs.render_queue
  let executed_writes := write_queue
  let sorted := sort_render render_queue
  ({ create_queue := qs.create_queue, write_queue := [], render_queue := [] },
   executed_writes, replay none sorted)

/-- One vertex of the interleaved layout built by `load_gltf`
(src/mesh.rs:11-17, 87-95), parametric over the position (`P`),
normal (`N`) and uv (`U`) component carriers. -/
structure Vertex (P N U : Type) where
  pos : P
  normal : N
  uv : U
deriving DecidableEq

/-- One glTF primitive as seen by `load_gltf` (src/mesh.rs:71-110):
each accessor (`read_positions`, `read_normals`, `read_tex_coords`,
`read_indices`) either yields a list or is absent. -/
structure Primitive (P N U : Type) where
  positions : Option (List P)
  normals : Option (List N)
  uvs : Option (List U)
  indices : Option (List Nat)

/-- The data `load_gltf` turns into one `Mesh` (src/mesh.rs:97-127):
the buffer contents passed to `create_buffer_init` plus `index_count`;
GPU buffer allocation itself is external. -/
structure MeshData (P N U : Type) where
  verts : List (Vertex P N U)
  indices : List Nat
  index_count : Nat
deriving DecidableEq

/-- The vertex vector of one primitive (src/mesh.rs:74-95):
`positions` defaults to the empty list; `normals`/`uvs` default to
zero-filled lists of the position count; each vertex takes
`normals.get(i).copied().unwrap_or(zero)` and likewise for uv. -/
def gltf_verts {P N U : Type} (n0 : N) (u0 : U) (prim : Primitive P N U) :
    List (Vertex P N U) :=
  let positions := prim.positions.getD []
  let normals := prim.normals.getD (List.replicate positions.length n0)
  let uvs := prim.uvs.getD (List.replicate positions.length u0)
  positions.enum.map fun ip =>
    { pos := ip.2, normal := normals.getD ip.1 n0, uv := uvs.getD ip.1 u0 }

/-- The index vector of one primitive (src/mesh.rs:107-110): the index
accessor's contents, or `(0..positions.len() as u32)` when absent. -/
def gltf_indices {P N U : Type} (prim : Primitive P N U) : List Nat :=
  prim.indices.getD (List.range (prim.positions.getD []).length)

/-- Processing of one primitive by `load_gltf` (src/mesh.rs:70-127):
build the vertex and index vectors, then debug-print `&verts[..3]` and
`&indices[..3]` (src/mesh.rs:112-113) — a panic, modelled as `none`,
whenever either vector has fewer than 3 elements — then produce the
mesh with `index_count = indices.len()`. -/
def load_primitive {P N U : Type} (n0 : N) (u0 : U) (prim : Primitive P N U) :
    Option (MeshData P N U) :=
  let verts := gltf_verts n0 u0 prim
  let indices := gltf_indices prim
  if verts.length < 3 ∨ indices.length < 3 then none
  else some { verts := verts, indices := indices, index_count := indices.length }

/-- `fn load_gltf` (src/mesh.rs:65-131) over the flattened primitive
list of the document: process primitives in order; a panic in any
primitive aborts the whole load. -/
def load_gltf {P N U : Type} (n0 : N) (u0 : U) :
    List (Primitive P N U) → Option (List (MeshData P N U))
  | [] => some []
  | prim :: rest =>
    match load_primitive n0 u0 prim with
    | none => none
    | some m =>
      match load_gltf n0 u0 rest with
      | none => none
      | some ms => some (m :: ms)

theorem camera_system_append {V S M C : Type} (cams : List (Camera V S M C))
    (q : List (GpuWriteBufferCommand (CameraUniform C))) :
    camera_main_uniform_system cams q = q ++ cams.map (fun camera =>
      { buffer := camera.buffer, offset := 0, data := camera.uniform }) := by
  induction cams generalizing q with
  | nil => simp [camera_main_uniform_system]
  | cons c rest ih => simp [camera_main_uniform_system, ih]

/-- C1 (counterexample): a `Renderable` with `visible == false` still
produces a `RenderDraw` command — `render_system` never consults
`visible` (src/app.rs:616-626). -/
theorem render_system_emits_for_invisible :
    (Renderable.visible
        { mesh := { vertex_buffer := 0, index_buffer := 1, index_count := 3 },
          material := { pipeline := 5, bind_groups := [7] },
          visible := false } = false)
    ∧ render_system
        [{ mesh := { vertex_buffer := 0, index_buffer := 1, index_count := 3 },
           material := { pipeline := 5, bind_groups := [7] },
           visible := false }] [] =
      [{ pipeline := 5, bind_groups := [7], vertex_buffer := 0,
         index_buffer := 1, index_count := 3 }] := by
  decide

/-- C1 (amended): `render_system` pushes exactly one `RenderDraw`
command for every `Renderable` in the query — visible or not —
referencing its material's pipeline and bind groups and its mesh's
vertex buffer, index buffer and index count, in query order. -/
theorem render_system_emits_one_command_per_renderable
    (rs : List Renderable) (q : List GpuRenderCommand) :
    render_system rs q = q ++ rs.map (fun r =>
      { pipeline := r.material.pipeline,
        bind_groups := r.material.bind_groups,
        vertex_buffer := r.mesh.vertex_buffer,
        index_buffer := r.mesh.index_buffer,
        index_count := r.mesh.index_count }) := by
  induction rs generalizing q with
  | nil => simp [render_system]
  | cons r rest ih => simp [render_system, ih]

/-- C2 (counterexample): a create-buffer command pending when
`update_and_render` runs is still in the create-buffer queue at the
start of the next frame — that queue is never drained
(src/app.rs:445-483 drains only the write-buffer and render queues). -/
theorem create_buffer_queue_not_drained :
    ((update_and_render (γ := Nat) (V := Unit) (S := Unit) (M := Unit) (C := Unit)
        [] []
        { create_queue := [{ data := 7 }], write_queue := [], render_queue := [] }).1).create_queue
      ≠ [] := by
  decide

/-- C2 (amended): each frame drains the write-buffer and render queues
exactly once — both are empty at the start of the next frame, and a
second frame executes only its own freshly pushed write commands — but
the create-buffer queue is never drained: its contents persist
unchanged across frames. -/
theorem frame_drains_write_and_render_queues {γ V S M C : Type}
    (cams cams' : List (Camera V S M C)) (rrender rrender' : List Renderable)
    (qs : Queues γ (CameraUniform C)) :
    (update_and_render cams rrender qs).1.write_queue = []
    ∧ (update_and_render cams rrender qs).1.render_queue = []
    ∧ (update_and_render cams rrender qs).1.create_queue = qs.create_queue
    ∧ (update_and_render cams' rrender' (update_and_render cams rrender qs).1).2.1 =
        camera_main_uniform_system cams' []
    ∧ (update_and_render cams' rrender' (update_and_render cams rrender qs).1).1.create_queue =
        qs.create_queue := by
  refine ⟨rfl, rfl, rfl, rfl, rfl⟩

/-- C3: applying a camera change the way the repository does (mutate
fields, then `update_uniform` — src/app.rs:499-501) and then running
the camera-sync routine pushes, in that same frame, a `WriteBuffer`
command targeting the camera's uniform buffer at offset 0 whose payload
is `perspective_rh_gl(fov, aspect, z_near, z_far) * look_at_rh(eye,
center, up)` computed from the changed fields; the executed writes of
that frame end with exactly this command — no one-frame lag. -/
theorem camera_sync_same_frame_uniform {γ V S M C : Type} (g : GlamOps V S M C)
    (c : Camera V S M C) (new_eye : V)
    (q : List (GpuWriteBufferCommand (CameraUniform C)))
    (rrender : List Renderable) (qs : Queues γ (CameraUniform C)) :
    camera_main_uniform_system [Camera.update_uniform g c] q =
      q ++ [{ buffer := c.buffer, offset := 0,
              data := { view_proj := g.to_cols_array_2d (g.mul
                (g.perspective_rh_gl c.fov c.aspect_ratio c.z_near c.z_far)
                (g.look_at_rh c.eye c.center c.up)) } }]
    ∧ camera_main_uniform_system [apply_camera_drag g c new_eye] q =
      q ++ [{ buffer := c.buffer, offset := 0,
              data := { view_proj := g.to_cols_array_2d (g.mul
                (g.perspective_rh_gl c.fov c.aspect_ratio c.z_near c.z_far)
                (g.look_at_rh new_eye c.center c.up)) } }]
    ∧ (update_and_render [apply_camera_drag g c new_eye] rrender qs).2.1 =
      qs.write_queue ++
        [{ buffer := c.buffer, offset := 0,
           data := { view_proj := g.to_cols_array_2d (g.mul
             (g.perspective_rh_gl c.fov c.aspect_ratio c.z_near c.z_far)
             (g.look_at_rh new_eye c.center c.up)) } }] := by
  refine ⟨?_, ?_, ?_⟩
  · simp [camera_system_append, Camera.update_uniform]
  · simp [camera_system_append, apply_camera_drag, Camera.update_uniform]
  · simp [update_and_render, camera_system_append, apply_camera_drag,
      Camera.update_uniform]

/-- C8: a spawn intent whose mesh handle or material handle resolves to
absent is skipped — it contributes no `Renderable`, leaving the spawned
set exactly what the remaining intents produce, and no failure is
propagated (`spawn_gltf_system` is total). -/
theorem spawn_skips_absent_handles (meshes : AssetManager Mesh)
    (materials : AssetManager Material) (evs₁ : List SpawnGltf) (e : SpawnGltf)
    (evs₂ : List SpawnGltf)
    (habs : meshes.get e.mesh_handle = none ∨ materials.get e.material_handle = none) :
    spawn_gltf_system meshes materials (evs₁ ++ e :: evs₂) =
      spawn_gltf_system meshes materials (evs₁ ++ evs₂) := by
  induction evs₁ with
  | nil =>
    simp only [List.nil_append]
    rcases habs with h | h
    · cases hmat : materials.get e.material_handle <;>
        simp [spawn_gltf_system, h, hmat]
    · cases hmesh : meshes.get e.mesh_handle <;>
        simp [spawn_gltf_system, h, hmesh]
  | cons e' rest ih =>
    cases hmesh : meshes.get e'.mesh_handle <;>
      cases hmat : materials.get e'.material_handle <;>
        simp [spawn_gltf_system, hmesh, hmat, ih]

/-- C8 (witness): a concrete registry holding one mesh and one
material; an intent naming the unknown mesh handle 5 spawns nothing. -/
theorem spawn_skips_absent_handles_witness :
    spawn_gltf_system
        ((AssetManager.new.insert { vertex_buffer := 0, index_buffer := 1, index_count := 3 }).2)
        ((AssetManager.new.insert { pipeline := 5, bind_groups := [7] }).2)
        ([{ mesh_handle := ⟨0⟩, material_handle := ⟨0⟩ }] ++
          { mesh_handle := ⟨5⟩, material_handle := ⟨0⟩ } :: []) =
      spawn_gltf_system
        ((AssetManager.new.insert { vertex_buffer := 0, index_buffer := 1, index_count := 3 }).2)
        ((AssetManager.new.insert { pipeline := 5, bind_groups := [7] }).2)
        ([{ mesh_handle := ⟨0⟩, material_handle := ⟨0⟩ }] ++ []) :=
  spawn_skips_absent_handles _ _ _ _ _ (Or.inl (by decide))

theorem runOps_handles_lower_bound {T : Type} (ops : List (RegOp T)) :
    ∀ (m : AssetManager T), ∀ h ∈ (runOps m ops).2, m.next_handle ≤ h.val := by
  induction ops with
  | nil => intro m h hmem; simp [runOps] at hmem
  | cons op rest ih =>
    intro m h hmem
    cases op with
    | ins a =>
      simp only [runOps, AssetManager.insert, List.mem_cons] at hmem
      rcases hmem with rfl | hmem
      · exact Nat.le_refl _
      · exact Nat.le_of_succ_le (ih _ h hmem)
    | rem h' =>
      simp only [runOps] at hmem
      exact ih (m.remove h').2 h hmem

theorem remove_preserves_next_handle {T : Type} (m : AssetManager T) (h : Handle) :
    ((m.remove h).2).next_handle = m.next_handle := rfl

/-- C6: over any call sequence against one registry — `insert`s freely
interleaved with `remove`s — the handles returned by the `insert` calls
are strictly increasing (hence pairwise distinct and never reused), and
`remove` leaves the handle counter untouched. -/
theorem insert_handles_strictly_increasing {T : Type}
    (m : AssetManager T) (ops : List (RegOp T)) :
    ((runOps m ops).2).Pairwise (fun a b => a.val < b.val)
    ∧ ∀ h, ((m.remove h).2).next_handle = m.next_handle := by
  refine ⟨?_, fun _ => rfl⟩
  induction ops generalizing m with
  | nil => simp [runOps]
  | cons op rest ih =>
    cases op with
    | ins a =>
      simp only [runOps]
      refine List.Pairwise.cons ?_ (ih _)
      intro h hmem
      have := runOps_handles_lower_bound rest (m.insert a).2 h hmem
      simp only [AssetManager.insert] at this ⊢
      omega
    | rem h' =>
      simp only [runOps]
      exact ih _

theorem get_none_preserved {T : Type} (ops : List (RegOp T)) :
    ∀ (m : AssetManager T) (h : Handle), h.val < m.next_handle →
      m.get h = none → ((runOps m ops).1).get h = none := by
  induction ops with
  | nil => intro m h _ hnone; simpa [runOps] using hnone
  | cons op rest ih =>
    intro m h hlt hnone
    cases op with
    | ins a =>
      simp only [runOps]
      refine ih _ h ?_ ?_
      · simp only [AssetManager.insert]; omega
      · simp only [AssetManager.get, AssetManager.insert] at hnone ⊢
        have hne : h ≠ (⟨m.next_handle⟩ : Handle) := by
          intro hEq; rw [hEq] at hlt; exact Nat.lt_irrefl _ hlt
        simp [hne, hnone]
    | rem h' =>
      simp only [runOps]
      refine ih _ h hlt ?_
      simp only [AssetManager.get, AssetManager.remove] at hnone ⊢
      by_cases hEq : h = h' <;> simp [hEq, hnone]

/-- C7: `get` after `remove(h)` yields absent; it stays absent under
any further call sequence when `h` is below the counter (handles are
never reused, so `h` is never inserted again); a second `remove(h)`
with no intervening insert yields absent (idempotence); and `remove`
of a handle `get` cannot resolve yields absent rather than an error. -/
theorem remove_get_absent {T : Type} (m : AssetManager T) (h : Handle) :
    ((m.remove h).2).get h = none
    ∧ (((m.remove h).2).remove h).1 = none
    ∧ (m.get h = none → (m.remove h).1 = none)
    ∧ (∀ ops : List (RegOp T), h.val < m.next_handle →
        ((runOps (m.remove h).2 ops).1).get h = none) := by
  refine ⟨?_, ?_, ?_, ?_⟩
  · simp [AssetManager.get, AssetManager.remove]
  · simp [AssetManager.remove]
  · intro hnone; simpa [AssetManager.get, AssetManager.remove] using hnone
  · intro ops hlt
    refine get_none_preserved ops _ h ?_ ?_
    · simpa [AssetManager.remove] using hlt
    · simp [AssetManager.get, AssetManager.remove]

/-- C7 (witness): in the registry obtained by inserting one asset and
removing handle 0, `get ⟨0⟩` is absent, a second removal returns
absent, removal of the unresolvable handle returns absent, and `get
⟨0⟩` is still absent after a further insert. -/
theorem remove_get_absent_witness :
    (((((AssetManager.new.insert 7).2.remove ⟨0⟩).2).remove ⟨0⟩).2).get ⟨0⟩ = none
    ∧ ((((((AssetManager.new.insert 7).2.remove ⟨0⟩).2).remove ⟨0⟩).2).remove ⟨0⟩).1 = none
    ∧ ((((AssetManager.new.insert 7).2.remove ⟨0⟩).2).remove ⟨0⟩).1 = none
    ∧ ((runOps ((((AssetManager.new.insert 7).2.remove ⟨0⟩).2).remove ⟨0⟩).2
        [RegOp.ins 9]).1).get ⟨0⟩ = none := by
  have t := remove_get_absent (T := Nat)
    ((AssetManager.new.insert 7).2.remove ⟨0⟩).2 ⟨0⟩
  exact ⟨t.1, t.2.1, t.2.2.1 (by decide), t.2.2.2 [RegOp.ins 9] (by decide)⟩

/-- C10: `load_gltf` panics (modelled `none`) on any primitive whose
vertex or index vector has fewer than 3 elements — the debug slices
`&verts[..3]` / `&indices[..3]` (src/mesh.rs:112-113) — including a
primitive with no position accessor, whose vertex vector is empty; for
a primitive with no index accessor the indices are the substituted
sequence `0..positions.len()` and `index_count` is that sequence's
length; and a panicking primitive aborts the whole load. -/
theorem load_gltf_short_primitive_panics {P N U : Type} (n0 : N) (u0 : U)
    (prim : Primitive P N U) :
    ((gltf_verts n0 u0 prim).length < 3 ∨ (gltf_indices prim).length < 3 →
      load_primitive n0 u0 prim = none)
    ∧ (prim.positions = none →
        gltf_verts n0 u0 prim = [] ∧ load_primitive n0 u0 prim = none)
    ∧ (prim.indices = none →
        gltf_indices prim = List.range (prim.positions.getD []).length
        ∧ ∀ m, load_primitive n0 u0 prim = some m →
            m.index_count = (prim.positions.getD []).length)
    ∧ (∀ prims : List (Primitive P N U), prim ∈ prims →
        load_primitive n0 u0 prim = none → load_gltf n0 u0 prims = none) := by
  refine ⟨?_, ?_, ?_, ?_⟩
  · intro h
    simp [load_primitive, h]
  · intro h
    refine ⟨?_, ?_⟩
    · simp [gltf_verts, h]
    · simp [load_primitive, gltf_verts, h]
  · intro h
    refine ⟨by simp [gltf_indices, h], ?_⟩
    intro m hm
    by_cases hc : (gltf_verts n0 u0 prim).length < 3 ∨ (gltf_indices prim).length < 3
    · simp [load_primitive, hc] at hm
    · simp only [load_primitive, if_neg hc, Option.some.injEq] at hm
      rw [← hm]
      simp [gltf_indices, h]
  · intro prims hmem hnone
    induction prims with
    | nil => cases hmem
    | cons p ps ih =>
      rcases List.mem_cons.mp hmem with rfl | hmem'
      · simp [load_gltf, hnone]
      · cases hp : load_primitive n0 u0 p with
        | none => simp [load_gltf, hp]
        | some m => simp [load_gltf, hp, ih hmem']

/-- C10 (witness): a primitive with no position accessor panics and
aborts the load; a 3-vertex primitive with no index accessor gets
indices `[0, 1, 2]` and `index_count` 3. -/
theorem load_gltf_short_primitive_panics_witness :
    load_primitive (P := Nat) (N := Nat) (U := Nat) 0 0
        { positions := none, normals := none, uvs := none, indices := some [0, 1, 2] } = none
    ∧ load_gltf (P := Nat) (N := Nat) (U := Nat) 0 0
        [{ positions := none, normals := none, uvs := none, indices := some [0, 1, 2] }] = none
    ∧ gltf_indices (P := Nat) (N := Nat) (U := Nat)
        { positions := some [1, 2, 3], normals := none, uvs := none, indices := none } =
        List.range 3
    ∧ MeshData.index_count (P := Nat) (N := Nat) (U := Nat)
        { verts := [{ pos := 1, normal := 0, uv := 0 },
                    { pos := 2, normal := 0, uv := 0 },
                    { pos := 3, normal := 0, uv := 0 }],
          indices := [0, 1, 2], index_count := 3 } = 3 := by
  have t1 := load_gltf_short_primitive_panics (P := Nat) (N := Nat) (U := Nat) 0 0
    { positions := none, normals := none, uvs := none, indices := some [0, 1, 2] }
  have t0 := load_gltf_short_primitive_panics (P := Nat) (N := Nat) (U := Nat) 0 0
    { positions := some [1, 2, 3], normals := none, uvs := none, indices := none }
  refine ⟨(t1.2.1 rfl).2, ?_, (t0.2.2.1 rfl).1, ?_⟩
  · exact t1.2.2.2 _ (List.mem_singleton.mpr rfl) ((t1.2.1 rfl).2)
  · exact (t0.2.2.1 rfl).2 _ (by decide)

theorem replay_panics_on_empty_bind_groups (cmds : List GpuRenderCommand) :
    ∀ cur, (∃ c ∈ cmds, c.bind_groups = []) → replay cur cmds = none := by
  induction cmds with
  | nil => intro cur h; simp at h
  | cons c cs ih =>
    intro cur h
    cases hbg : c.bind_groups with
    | nil => simp [replay, hbg]
    | cons bg tl =>
      rcases h with ⟨c', hc', hbg'⟩
      rcases List.mem_cons.mp hc' with rfl | hmem
      · rw [hbg] at hbg'; cases hbg'
      · have := ih (some c.pipeline) ⟨c', hmem, hbg'⟩
        simp [replay, hbg, this]

theorem replay_bind_groups_head (cmds : List GpuRenderCommand) :
    ∀ cur evs, replay cur cmds = some evs →
      ∀ slot bg, RenderEvent.set_bind_group slot bg ∈ evs →
        slot = 0 ∧ ∃ c ∈ cmds, c.bind_groups.head? = some bg := by
  induction cmds with
  | nil =>
    intro cur evs hr slot bg hmem
    simp only [replay, Option.some.injEq] at hr
    rw [← hr] at hmem
    simp at hmem
  | cons c cs ih =>
    intro cur evs hr slot bg hmem
    cases hbg : c.bind_groups with
    | nil => simp [replay, hbg] at hr
    | cons bg0 tl =>
      cases hrec : replay (some c.pipeline) cs with
      | none => simp [replay, hbg, hrec] at hr
      | some rest =>
        simp only [replay, hbg, hrec, Option.some.injEq] at hr
        rw [← hr] at hmem
        simp only [List.mem_append, List.mem_cons] at hmem
        rcases hmem with (hpre | hblock) | hrest
        · by_cases hcur : cur = some c.pipeline <;> simp [hcur] at hpre
        · rcases hblock with h1 | h1 | h1 | h1 | h1 <;> first
            | (cases h1; exact ⟨rfl, c, List.mem_cons_self _ _, by simp [hbg]⟩)
            | cases h1
        · obtain ⟨hs, c', hc', hh⟩ := ih (some c.pipeline) rest hrec slot bg hrest
          exact ⟨hs, c', List.mem_cons_of_mem _ hc', hh⟩

/-- C9: the replay loop indexes each command's bind-group list at
position 0 unconditionally — a command with an empty bind-group list
makes the frame's replay panic — and every bind-group actually bound is
bound at slot 0 and is the first element of some command's list: bind
groups beyond the first are never bound. -/
theorem replay_indexes_first_bind_group (cmds : List GpuRenderCommand)
    (cur : Option GpuId) :
    ((∃ c ∈ cmds, c.bind_groups = []) → replay cur cmds = none)
    ∧ (∀ evs, replay cur cmds = some evs →
        ∀ slot bg, RenderEvent.set_bind_group slot bg ∈ evs →
          slot = 0 ∧ ∃ c ∈ cmds, c.bind_groups.head? = some bg) :=
  ⟨replay_panics_on_empty_bind_groups cmds cur,
   fun evs hr slot bg hmem => replay_bind_groups_head cmds cur evs hr slot bg hmem⟩

/-- C9 (witness): a command with no bind groups panics the replay; a
command with bind groups `[7, 8]` binds only `7`, at slot 0. -/
theorem replay_indexes_first_bind_group_witness :
    replay none [{ pipeline := 1, bind_groups := [], vertex_buffer := 0,
                   index_buffer := 0, index_count := 3 }] = none
    ∧ (0 = 0 ∧ ∃ c ∈ [({ pipeline := 1, bind_groups := [7, 8], vertex_buffer := 0,
                          index_buffer := 0, index_count := 3 } : GpuRenderCommand)],
         c.bind_groups.head? = some 7) := by
  refine ⟨?_, ?_⟩
  · exact (replay_indexes_first_bind_group _ none).1 (by decide)
  · exact (replay_indexes_first_bind_group
      [{ pipeline := 1, bind_groups := [7, 8], vertex_buffer := 0,
         index_buffer := 0, index_count := 3 }] none).2
      [RenderEvent.set_pipeline 1, RenderEvent.set_bind_group 0 7,
       RenderEvent.set_vertex_buffer 0 0, RenderEvent.set_index_buffer 0,
       RenderEvent.draw_indexed 3] (by decide) 0 7 (by decide)

theorem renderLE_trans (a b c : GpuRenderCommand) :
    renderLE a b → renderLE b c → renderLE a c := by
  intro hab hbc
  simp only [renderLE, decide_eq_true_eq] at hab hbc ⊢
  exact Nat.le_trans hab hbc

theorem renderLE_total (a b : GpuRenderCommand) :
    renderLE a b || renderLE b a := by
  rcases Nat.le_total a.pipeline b.pipeline with h | h <;>
    simp [renderLE, h]

/-- C5: the per-frame sort of drained `RenderDraw` commands by pipeline
identity is stable — for every pipeline `p`, the subsequence of
commands whose pipeline is `p` is the same, in the same order, before
and after sorting. -/
theorem render_sort_stable (cmds : List GpuRenderCommand) (p : GpuId) :
    (sort_render cmds).filter (fun c => c.pipeline == p) =
      cmds.filter (fun c => c.pipeline == p) := by
  have hpw : (cmds.filter (fun c => c.pipeline == p)).Pairwise
      (fun a b => renderLE a b) := by
    refine List.pairwise_of_forall_mem_list ?_
    intro a ha b hb
    have ha' := (List.mem_filter.mp ha).2
    have hb' := (List.mem_filter.mp hb).2
    simp only [beq_iff_eq] at ha' hb'
    simp [renderLE, ha', hb']
  have hsub : List.Sublist (cmds.filter (fun c => c.pipeline == p)) (sort_render cmds) :=
    List.sublist_mergeSort renderLE_trans renderLE_total hpw
      (List.filter_sublist cmds)
  have hidem : (fun c : GpuRenderCommand => (c.pipeline == p) && (c.pipeline == p)) =
      fun c : GpuRenderCommand => c.pipeline == p := by
    funext c
    cases h : (c.pipeline == p) <;> simp [h]
  have hsub2 : List.Sublist (cmds.filter (fun c => c.pipeline == p))
      ((sort_render cmds).filter (fun c => c.pipeline == p)) := by
    have h := hsub.filter (fun c => c.pipeline == p)
    rwa [List.filter_filter, hidem] at h
  have hperm : List.Perm (sort_render cmds) cmds := List.mergeSort_perm cmds renderLE
  have hlen : ((sort_render cmds).filter (fun c => c.pipeline == p)).length =
      (cmds.filter (fun c => c.pipeline == p)).length :=
    (hperm.filter _).length_eq
  exact (hsub2.eq_of_length hlen.symm).symm

theorem card_insert_erase (q : GpuId) (T : Finset GpuId) :
    (insert q T).card = (T.erase q).card + 1 := by
  by_cases h : q ∈ T
  · rw [Finset.insert_eq_self.mpr h]
    exact (Finset.card_erase_add_one h).symm
  · rw [Finset.card_insert_of_not_mem h, Finset.erase_eq_of_not_mem h]

theorem bindCount_sorted_erase (l : List GpuRenderCommand) :
    ∀ p : GpuId, l.Pairwise (fun a b => renderLE a b) →
      (∀ c ∈ l, p ≤ c.pipeline) →
      bindCount (some p) l = ((l.map GpuRenderCommand.pipeline).toFinset.erase p).card := by
  induction l with
  | nil => intro p _ _; simp [bindCount]
  | cons c cs ih =>
    intro p hpw hlb
    have hpc : ∀ x ∈ cs, c.pipeline ≤ x.pipeline := by
      intro x hx
      have := (List.pairwise_cons.mp hpw).1 x hx
      simpa [renderLE] using this
    have hcs := (List.pairwise_cons.mp hpw).2
    by_cases hq : c.pipeline = p
    · have h1 : bindCount (some p) (c :: cs) = bindCount (some p) cs := by
        simp [bindCount, hq]
      have h2 : bindCount (some p) cs =
          ((cs.map GpuRenderCommand.pipeline).toFinset.erase p).card := by
        refine ih p hcs ?_
        intro x hx
        exact le_trans (hlb c (List.mem_cons_self c cs)) (hq ▸ hpc x hx)
      rw [h1, h2]
      simp only [List.map_cons, List.toFinset_cons, hq]
      congr 1
      exact (Finset.erase_insert_eq_erase _ _).symm
    · have hlt : p < c.pipeline :=
        lt_of_le_of_ne (hlb c (List.mem_cons_self c cs)) (fun hEq => hq hEq.symm)
      have h1 : bindCount (some p) (c :: cs) = 1 + bindCount (some c.pipeline) cs := by
        have : ¬ (some p = some c.pipeline) := by
          intro hEq; exact hq (Option.some.injEq _ _ ▸ hEq).symm
        simp [bindCount, this]
      have h2 : bindCount (some c.pipeline) cs =
          ((cs.map GpuRenderCommand.pipeline).toFinset.erase c.pipeline).card :=
        ih c.pipeline hcs hpc
      have hnm : p ∉ insert c.pipeline (cs.map GpuRenderCommand.pipeline).toFinset := by
        simp only [Finset.mem_insert, List.mem_toFinset, List.mem_map]
        rintro (hEq | ⟨x, hx, hEq⟩)
        · exact hq hEq.symm
        · exact absurd hEq (ne_of_gt (lt_of_lt_of_le hlt (hpc x hx)))
      rw [h1, h2]
      simp only [List.map_cons, List.toFinset_cons]
      rw [Finset.erase_eq_of_not_mem hnm, card_insert_erase]
      exact Nat.add_comm 1 _

theorem bindCount_none_sorted (l : List GpuRenderCommand)
    (hpw : l.Pairwise (fun a b => renderLE a b)) :
    bindCount none l = (l.map GpuRenderCommand.pipeline).toFinset.card := by
  cases l with
  | nil => simp [bindCount]
  | cons c cs =>
    have hpc : ∀ x ∈ cs, c.pipeline ≤ x.pipeline := by
      intro x hx
      have := (List.pairwise_cons.mp hpw).1 x hx
      simpa [renderLE] using this
    have h2 : bindCount (some c.pipeline) cs =
        ((cs.map GpuRenderCommand.pipeline).toFinset.erase c.pipeline).card :=
      bindCount_sorted_erase cs c.pipeline (List.pairwise_cons.mp hpw).2 hpc
    simp only [bindCount, List.map_cons, List.toFinset_cons]
    rw [h2, card_insert_erase]
    simp [Nat.add_comm]

theorem replay_some_of_nonempty_bind_groups (l : List GpuRenderCommand) :
    ∀ cur, (∀ c ∈ l, c.bind_groups ≠ []) →
      ∃ evs, replay cur l = some evs ∧
        evs.countP RenderEvent.isSetPipeline = bindCount cur l := by
  induction l with
  | nil => intro cur _; exact ⟨[], rfl, by simp [bindCount]⟩
  | cons c cs ih =>
    intro cur hnb
    obtain ⟨bg, tl, hc⟩ := List.exists_cons_of_ne_nil (hnb c (List.mem_cons_self c cs))
    obtain ⟨rest, hr, hcount⟩ := ih (some c.pipeline) (fun x hx => hnb x (List.mem_cons_of_mem c hx))
    by_cases hcur : cur = some c.pipeline
    · refine ⟨RenderEvent.set_bind_group 0 bg ::
          RenderEvent.set_vertex_buffer 0 c.vertex_buffer ::
          RenderEvent.set_index_buffer c.index_buffer ::
          RenderEvent.draw_indexed c.index_count :: rest, ?_, ?_⟩
      · simp [replay, hc, hr, hcur]
      · simp [List.countP_cons, RenderEvent.isSetPipeline, hcount, bindCount, hcur]
    · refine ⟨RenderEvent.set_pipeline c.pipeline ::
          RenderEvent.set_bind_group 0 bg ::
          RenderEvent.set_vertex_buffer 0 c.vertex_buffer ::
          RenderEvent.set_index_buffer c.index_buffer ::
          RenderEvent.draw_indexed c.index_count :: rest, ?_, ?_⟩
      · simp [replay, hc, hr, hcur]
      · simp only [List.countP_cons, RenderEvent.isSetPipeline, bindCount, hcount,
          if_neg hcur]
        simp [Nat.add_comm]

/-- C4: draining render commands, sorting them by pipeline identity and
replaying the sorted list issues exactly one pipeline-bind call per
distinct pipeline reference — one per maximal contiguous run of equal
pipelines, never more (each command needs a nonempty bind-group list
for the replay not to panic). -/
theorem sorted_replay_binds_once_per_pipeline (cmds : List GpuRenderCommand)
    (hnb : ∀ c ∈ cmds, c.bind_groups ≠ []) :
    (replay none (sort_render cmds)).map (fun evs => evs.countP RenderEvent.isSetPipeline) =
      some ((cmds.map GpuRenderCommand.pipeline).toFinset.card) := by
  have hnb' : ∀ c ∈ sort_render cmds, c.bind_groups ≠ [] := by
    intro c hc
    exact hnb c (by simpa [sort_render] using (List.mem_mergeSort (l := cmds)).mp hc)
  obtain ⟨evs, hr, hcount⟩ :=
    replay_some_of_nonempty_bind_groups (sort_render cmds) none hnb'
  have hsorted : (sort_render cmds).Pairwise (fun a b => renderLE a b) :=
    List.sorted_mergeSort renderLE_trans renderLE_total cmds
  have hperm : List.Perm (sort_render cmds) cmds := List.mergeSort_perm cmds renderLE
  rw [hr]
  simp only [Option.map_some']
  rw [hcount, bindCount_none_sorted _ hsorted,
    List.toFinset_eq_of_perm _ _ (hperm.map GpuRenderCommand.pipeline)]

/-- C4 (witness): three commands over pipelines `[1, 2, 1]` — two
distinct pipelines — replay with exactly 2 pipeline binds. -/
theorem sorted_replay_binds_once_per_pipeline_witness :
    (replay none (sort_render
        [{ pipeline := 1, bind_groups := [0], vertex_buffer := 10,
           index_buffer := 11, index_count := 3 },
         { pipeline := 2, bind_groups := [0], vertex_buffer := 12,
           index_buffer := 13, index_count := 3 },
         { pipeline := 1, bind_groups := [0], vertex_buffer := 14,
           index_buffer := 15, index_count := 3 }])).map
      (fun evs => evs.countP RenderEvent.isSetPipeline) = some 2 := by
  have t := sorted_replay_binds_once_per_pipeline
    [{ pipeline := 1, bind_groups := [0], vertex_buffer := 10,
       index_buffer := 11, index_count := 3 },
     { pipeline := 2, bind_groups := [0], vertex_buffer := 12,
       index_buffer := 13, index_count := 3 },
     { pipeline := 1, bind_groups := [0], vertex_buffer := 14,
       index_buffer := 15, index_count := 3 }] (by decide)
  rw [t]
  decide
